import Mathlib

/-!
Verification of the base-worker task-dispatch engine
(`internal/internal_worker_base.go` of the temporal-go-sdk).

The engine is concurrent Go code, embedded here as a labelled small-step
transition system.  Shared channels become counters (for the buffered
permit channel `pollerRequestCh`) or rendezvous rules (for the unbuffered
intake channel `taskQueueCh`); every goroutine of the source (the pollers
of `runPoller`/`pollTask`, the single dispatcher of `runTaskDispatcher`,
and the spawned `processTask` routines) becomes a component of the state
with a phase marking its current program point.  Go's `select` among
ready cases is nondeterministic, so each ready branch is its own
transition rule.  The `Start`/`Stop` lifecycle is pure sequential code
and is embedded separately as functions on a lifecycle record.
-/

namespace TemporalBaseWorker

/-- Configuration of the base worker, from `baseWorkerOptions`
(`internal_worker_base.go`).  Durations are in milliseconds; the
`taskWorker` interface and `userContextCancel` are the external
environment and are modelled by the nondeterminism of the step
relation. -/
structure BaseWorkerOptions where
  pollerCount : Nat
  pollerRate : Nat
  maxConcurrentTask : Nat
  maxTaskPerSecond : Nat
  stopTimeout : Nat
  identity : String
  workerType : String
  deriving DecidableEq, Repr

/-- Classification of the error returned by `PollTask()`, as seen by
`pollTask`: no error, an error with `isServiceTransientError(err)`
true, or an error with it false. -/
inductive ErrClass where
  | noErr
  | transient
  | nonTransient
  deriving DecidableEq, Repr

/-- Program point of one poller goroutine (`runPoller` / `pollTask`).
`pSelect` is the select at the top of `runPoller`'s loop; `pPolling`
means the poller holds a permit and is inside `pollTask` about to call
`PollTask()`; `pOffering t` means it holds a permit and a polled task
`t` and is at the select sending on `taskQueueCh`; `pReturning` means
it holds a permit and is at the send on `pollerRequestCh` of the
no-task branch; `pDone` means `runPoller` has returned. -/
inductive PollerPhase where
  | pSelect
  | pPolling
  | pOffering (t : Nat)
  | pReturning
  | pDone
  deriving DecidableEq, Repr

/-- Program point of the dispatcher goroutine (`runTaskDispatcher`).
`dSeeding k` means `k` of the `maxConcurrentTask` pre-load sends into
`pollerRequestCh` have completed; `dSelect` is the select of the main
loop; `dWaitLimiter t` means a poll-sourced task `t` was received and
the dispatcher is at `taskLimiter.Wait`; `dSpawn t polled` means it is
about to run `go bw.processTask(task)`; `dDone` means the routine has
returned. -/
inductive DispatcherPhase where
  | dSeeding (k : Nat)
  | dSelect
  | dWaitLimiter (t : Nat)
  | dSpawn (t : Nat) (polled : Bool)
  | dDone
  deriving DecidableEq, Repr

/-- Program point of one spawned `processTask` goroutine.  `running`
is the call to `ProcessTask(task)` (including the deferred recover);
`returningPermit` is the deferred send on `pollerRequestCh` of a
poll-sourced task; `done` means the goroutine has finished. -/
inductive ProcPhase where
  | running
  | returningPermit
  | done
  deriving DecidableEq, Repr

/-- One spawned `processTask` goroutine: whether its task was a
`*polledTask` (poll-sourced) and its current phase. -/
structure Proc where
  polled : Bool
  phase : ProcPhase
  deriving DecidableEq, Repr

/-- Global state of the running engine.  `permitCh` is the number of
permits currently buffered in `pollerRequestCh` (capacity
`maxConcurrentTask`); `stopClosed` records whether `close(bw.stopCh)`
has happened; `panicCount` is the `WorkerPanicCounter` metric;
`retrierFails` is the consecutive-failure count of the shared
`ConcurrentRetrier`.  The unbuffered `taskQueueCh` holds no state: its
handoffs are rendezvous transitions. -/
structure EngineState where
  stopClosed : Bool
  permitCh : Nat
  pollers : List PollerPhase
  dispatcher : DispatcherPhase
  procs : List Proc
  panicCount : Nat
  retrierFails : Nat
  deriving DecidableEq, Repr

/-- State immediately after `newBaseWorker` plus the launching part of
`Start()`: `pollerCount` pollers parked at their select, the dispatcher
about to run its pre-load loop, an empty permit channel, no processors,
stop channel open. -/
def startedState (cfg : BaseWorkerOptions) : EngineState :=
  { stopClosed := false
    permitCh := 0
    pollers := List.replicate cfg.pollerCount .pSelect
    dispatcher := .dSeeding 0
    procs := []
    panicCount := 0
    retrierFails := 0 }

/-- Destination phase of a poller after `PollTask()` returns, from the
tail of `pollTask`: a non-nil task is offered on `taskQueueCh`, a nil
task leads to the permit-returning send on `pollerRequestCh`. -/
def pollResultPhase : Option Nat → PollerPhase
  | some t => .pOffering t
  | none => .pReturning

/-- Effect of `pollTask`'s error handling on the retrier's
consecutive-failure count: `Failed()` on a transient service error,
`Succeeded()` (reset to zero) otherwise — including on a non-transient
error, which is the deliberate policy of the source. -/
def updateRetrier : ErrClass → Nat → Nat
  | .transient, c => c + 1
  | .noErr, _ => 0
  | .nonTransient, _ => 0

/-- Phase a `processTask` goroutine enters once `ProcessTask` has
returned (or its panic was recovered): a poll-sourced task proceeds to
the deferred permit-returning send, any other task is finished. -/
def procDonePhase : Bool → ProcPhase
  | true => .returningPermit
  | false => .done

/-- Effect on the `WorkerPanicCounter` metric of one `processTask`
run: the deferred recover increments it exactly once when `ProcessTask`
panicked, and not at all otherwise. -/
def bumpPanic : Bool → Nat → Nat
  | true, n => n + 1
  | false, n => n

/-- Labels naming which source-level action a step embeds. -/
inductive StepLabel where
  | seedPermit
  | seedDone
  | dispatchExit
  | offerDeliver (t : Nat)
  | localInject (t : Nat)
  | limiterToken (t : Nat)
  | limiterCancel
  | spawnProc (t : Nat) (polled : Bool)
  | pollerExit
  | takePermit
  | pollInvoke (otask : Option Nat) (ec : ErrClass)
  | pollSkipped
  | offerDrop (t : Nat)
  | pollerRearm
  | procReturn (panicked : Bool) (polled : Bool)
  | procRearm
  | stopSignal
  deriving DecidableEq, Repr

/-- Small-step transition relation of the engine.  Each constructor
embeds one atomic action of `internal_worker_base.go`; channel sends
carry the capacity guard of the Go channel, and every ready branch of a
Go `select` is a separate rule (Go chooses among ready cases
nondeterministically). -/
inductive Step (cfg : BaseWorkerOptions) : StepLabel → EngineState → EngineState → Prop where
  | seedPermit (s : EngineState) (k : Nat)
      (hd : s.dispatcher = .dSeeding k)
      (hk : k < cfg.maxConcurrentTask)
      (hroom : s.permitCh < cfg.maxConcurrentTask) :
      Step cfg .seedPermit s
        { s with dispatcher := .dSeeding (k + 1), permitCh := s.permitCh + 1 }
  | seedDone (s : EngineState)
      (hd : s.dispatcher = .dSeeding cfg.maxConcurrentTask) :
      Step cfg .seedDone s { s with dispatcher := .dSelect }
  | dispatchExit (s : EngineState)
      (hd : s.dispatcher = .dSelect) (hstop : s.stopClosed = true) :
      Step cfg .dispatchExit s { s with dispatcher := .dDone }
  | offerDeliver (s : EngineState) (t : Nat) (l₁ l₂ : List PollerPhase)
      (hp : s.pollers = l₁ ++ .pOffering t :: l₂)
      (hd : s.dispatcher = .dSelect) :
      Step cfg (.offerDeliver t) s
        { s with pollers := l₁ ++ .pSelect :: l₂, dispatcher := .dWaitLimiter t }
  | localInject (s : EngineState) (t : Nat)
      (hd : s.dispatcher = .dSelect) :
      Step cfg (.localInject t) s { s with dispatcher := .dSpawn t false }
  | limiterToken (s : EngineState) (t : Nat)
      (hd : s.dispatcher = .dWaitLimiter t) :
      Step cfg (.limiterToken t) s { s with dispatcher := .dSpawn t true }
  | limiterCancel (s : EngineState) (t : Nat)
      (hd : s.dispatcher = .dWaitLimiter t) (hstop : s.stopClosed = true) :
      Step cfg .limiterCancel s { s with dispatcher := .dDone }
  | spawnProc (s : EngineState) (t : Nat) (polled : Bool)
      (hd : s.dispatcher = .dSpawn t polled) :
      Step cfg (.spawnProc t polled) s
        { s with dispatcher := .dSelect, procs := s.procs ++ [⟨polled, .running⟩] }
  | pollerExit (s : EngineState) (l₁ l₂ : List PollerPhase)
      (hp : s.pollers = l₁ ++ .pSelect :: l₂) (hstop : s.stopClosed = true) :
      Step cfg .pollerExit s { s with pollers := l₁ ++ .pDone :: l₂ }
  | takePermit (s : EngineState) (l₁ l₂ : List PollerPhase)
      (hp : s.pollers = l₁ ++ .pSelect :: l₂) (hc : 0 < s.permitCh) :
      Step cfg .takePermit s
        { s with pollers := l₁ ++ .pPolling :: l₂, permitCh := s.permitCh - 1 }
  | pollInvoke (s : EngineState) (l₁ l₂ : List PollerPhase)
      (otask : Option Nat) (ec : ErrClass)
      (hp : s.pollers = l₁ ++ .pPolling :: l₂) :
      Step cfg (.pollInvoke otask ec) s
        { s with pollers := l₁ ++ pollResultPhase otask :: l₂,
                 retrierFails := updateRetrier ec s.retrierFails }
  | pollSkipped (s : EngineState) (l₁ l₂ : List PollerPhase)
      (hp : s.pollers = l₁ ++ .pPolling :: l₂)
      (hrate : 0 < cfg.pollerRate) (hstop : s.stopClosed = true) :
      Step cfg .pollSkipped s { s with pollers := l₁ ++ .pReturning :: l₂ }
  | offerDrop (s : EngineState) (t : Nat) (l₁ l₂ : List PollerPhase)
      (hp : s.pollers = l₁ ++ .pOffering t :: l₂) (hstop : s.stopClosed = true) :
      Step cfg (.offerDrop t) s { s with pollers := l₁ ++ .pSelect :: l₂ }
  | pollerRearm (s : EngineState) (l₁ l₂ : List PollerPhase)
      (hp : s.pollers = l₁ ++ .pReturning :: l₂)
      (hroom : s.permitCh < cfg.maxConcurrentTask) :
      Step cfg .pollerRearm s
        { s with pollers := l₁ ++ .pSelect :: l₂, permitCh := s.permitCh + 1 }
  | procReturn (s : EngineState) (pk polled : Bool) (l₁ l₂ : List Proc)
      (hp : s.procs = l₁ ++ ⟨polled, .running⟩ :: l₂) :
      Step cfg (.procReturn pk polled) s
        { s with
            procs := l₁ ++ ⟨polled, procDonePhase polled⟩ :: l₂,
            panicCount := bumpPanic pk s.panicCount }
  | procRearm (s : EngineState) (l₁ l₂ : List Proc)
      (hp : s.procs = l₁ ++ ⟨true, .returningPermit⟩ :: l₂)
      (hroom : s.permitCh < cfg.maxConcurrentTask) :
      Step cfg .procRearm s
        { s with procs := l₁ ++ ⟨true, .done⟩ :: l₂, permitCh := s.permitCh + 1 }
  | stopSignal (s : EngineState) (h : s.stopClosed = false) :
      Step cfg .stopSignal s { s with stopClosed := true }

/-- States reachable from the freshly started engine. -/
inductive Reachable (cfg : BaseWorkerOptions) : EngineState → Prop where
  | init : Reachable cfg (startedState cfg)
  | step {s s' : EngineState} {lb : StepLabel} :
      Reachable cfg s → Step cfg lb s s' → Reachable cfg s'

/-- A poller phase that holds a dispatch permit: everywhere inside
`pollTask` (polling, offering a task, or at the permit-returning
send). -/
def pollerHoldsPermit : PollerPhase → Bool
  | .pPolling => true
  | .pOffering _ => true
  | .pReturning => true
  | .pSelect => false
  | .pDone => false

/-- A poller phase blocked at the send on `taskQueueCh`. -/
def pollerOffering : PollerPhase → Bool
  | .pOffering _ => true
  | _ => false

/-- Number of permits held by the dispatcher: it carries the permit of
a poll-sourced task from the rendezvous on `taskQueueCh` until the
processor is spawned. -/
def dispPermits : DispatcherPhase → Nat
  | .dWaitLimiter _ => 1
  | .dSpawn _ true => 1
  | .dSpawn _ false => 0
  | _ => 0

/-- Whether a spawned processor still holds the permit of its
poll-sourced task (it does until the deferred send on
`pollerRequestCh` completes). -/
def procHoldsPermit : Proc → Bool
  | ⟨true, .running⟩ => true
  | ⟨true, .returningPermit⟩ => true
  | _ => false

/-- Permits checked out of `pollerRequestCh`: held by pollers, by the
dispatcher, or by in-flight poll-sourced processors. -/
def permitsOutside (s : EngineState) : Nat :=
  s.pollers.countP pollerHoldsPermit + dispPermits s.dispatcher
    + s.procs.countP procHoldsPermit

/-- Number of permits the dispatcher's pre-load loop has issued so far
(`maxConcurrentTask` once the loop has finished). -/
def seededCount (cfg : BaseWorkerOptions) : DispatcherPhase → Nat
  | .dSeeding k => k
  | _ => cfg.maxConcurrentTask

/-- Poll-sourced tasks that have left the task source but whose
`processTask` goroutine has not yet been spawned: held by an offering
poller or pending inside the dispatcher. -/
def unbegunPolled (s : EngineState) : Nat :=
  s.pollers.countP pollerOffering + dispPermits s.dispatcher

/-- Permit-accounting invariant of the engine: the poller list keeps
its size; the dispatcher never issues more than `maxConcurrentTask`
permits; buffered plus checked-out permits never exceed the permits
issued; and, as long as the stop channel is open, no permit is lost:
buffered plus checked-out permits equal exactly the permits issued. -/
def Inv (cfg : BaseWorkerOptions) (s : EngineState) : Prop :=
  s.pollers.length = cfg.pollerCount ∧
  seededCount cfg s.dispatcher ≤ cfg.maxConcurrentTask ∧
  s.permitCh + permitsOutside s ≤ seededCount cfg s.dispatcher ∧
  (s.stopClosed = false → s.permitCh + permitsOutside s = seededCount cfg s.dispatcher)

theorem countP_replicate_false {α : Type} (p : α → Bool) (a : α) (hp : p a = false) :
    ∀ n, (List.replicate n a).countP p = 0 := by
  intro n
  induction n with
  | zero => simp
  | succ n ih => simp [List.replicate_succ, List.countP_cons, hp, ih]

theorem inv_init (cfg : BaseWorkerOptions) : Inv cfg (startedState cfg) := by
  refine ⟨?_, ?_, ?_, ?_⟩ <;>
    simp [Inv, startedState, permitsOutside, seededCount, dispPermits,
      countP_replicate_false pollerHoldsPermit PollerPhase.pSelect rfl]

theorem countP_mid {α : Type} (p : α → Bool) (l₁ l₂ : List α) (a : α) :
    (l₁ ++ a :: l₂).countP p = l₁.countP p + (l₂.countP p + if p a then 1 else 0) := by
  simp [List.countP_append, List.countP_cons]

theorem inv_step {cfg : BaseWorkerOptions} {lb : StepLabel} {s s' : EngineState}
    (h : Step cfg lb s s') (hib : Inv cfg s) : Inv cfg s' := by
  obtain ⟨h1, h2, h3, h4⟩ := hib
  simp only [permitsOutside] at h3 h4
  cases h with
  | seedPermit s k hd hk hroom =>
      rw [hd] at h2 h3 h4
      simp only [seededCount, dispPermits] at h2 h3 h4
      refine ⟨h1, ?_, ?_, fun hst => ?_⟩
      · simp only [seededCount]
        omega
      · simp only [permitsOutside, seededCount, dispPermits]
        omega
      · have h5 := h4 hst
        simp only [permitsOutside, seededCount, dispPermits]
        omega
  | seedDone s hd =>
      rw [hd] at h2 h3 h4
      simp only [seededCount, dispPermits] at h2 h3 h4
      refine ⟨h1, ?_, ?_, fun hst => ?_⟩
      · simp only [seededCount]
        omega
      · simp only [permitsOutside, seededCount, dispPermits]
        omega
      · have h5 := h4 hst
        simp only [permitsOutside, seededCount, dispPermits]
        omega
  | dispatchExit s hd hstop =>
      rw [hd] at h2 h3 h4
      simp only [seededCount, dispPermits] at h2 h3 h4
      refine ⟨h1, ?_, ?_, fun hst => ?_⟩
      · simp only [seededCount]
        omega
      · simp only [permitsOutside, seededCount, dispPermits]
        omega
      · simp [hstop] at hst
  | offerDeliver s t l₁ l₂ hp hd =>
      have e1 : (l₁ ++ PollerPhase.pOffering t :: l₂).countP pollerHoldsPermit
          = l₁.countP pollerHoldsPermit + (l₂.countP pollerHoldsPermit + 1) := by
        simp [countP_mid, pollerHoldsPermit]
      have e2 : (l₁ ++ PollerPhase.pSelect :: l₂).countP pollerHoldsPermit
          = l₁.countP pollerHoldsPermit + l₂.countP pollerHoldsPermit := by
        simp [countP_mid, pollerHoldsPermit]
      rw [hp] at h1 h3 h4
      rw [hd] at h2 h3 h4
      rw [e1] at h3 h4
      simp only [seededCount, dispPermits] at h2 h3 h4
      refine ⟨?_, ?_, ?_, fun hst => ?_⟩
      · show (l₁ ++ PollerPhase.pSelect :: l₂).length = cfg.pollerCount
        simpa using h1
      · simp only [seededCount]
        omega
      · simp only [permitsOutside, seededCount, dispPermits, e2]
        omega
      · have h5 := h4 hst
        simp only [permitsOutside, seededCount, dispPermits, e2]
        omega
  | localInject s t hd =>
      rw [hd] at h2 h3 h4
      simp only [seededCount, dispPermits] at h2 h3 h4
      refine ⟨h1, ?_, ?_, fun hst => ?_⟩
      · simp only [seededCount]
        omega
      · simp only [permitsOutside, seededCount, dispPermits]
        omega
      · have h5 := h4 hst
        simp only [permitsOutside, seededCount, dispPermits]
        omega
  | limiterToken s t hd =>
      rw [hd] at h2 h3 h4
      simp only [seededCount, dispPermits] at h2 h3 h4
      refine ⟨h1, ?_, ?_, fun hst => ?_⟩
      · simp only [seededCount]
        omega
      · simp only [permitsOutside, seededCount, dispPermits]
        omega
      · have h5 := h4 hst
        simp only [permitsOutside, seededCount, dispPermits]
        omega
  | limiterCancel s t hd hstop =>
      rw [hd] at h2 h3 h4
      simp only [seededCount, dispPermits] at h2 h3 h4
      refine ⟨h1, ?_, ?_, fun hst => ?_⟩
      · simp only [seededCount]
        omega
      · simp only [permitsOutside, seededCount, dispPermits]
        omega
      · simp [hstop] at hst
  | spawnProc s t polled hd =>
      rw [hd] at h2 h3 h4
      cases polled with
      | true =>
          simp only [seededCount, dispPermits] at h2 h3 h4
          have e2 : (s.procs ++ [(⟨true, ProcPhase.running⟩ : Proc)]).countP procHoldsPermit
              = s.procs.countP procHoldsPermit + 1 := by
            simp [List.countP_append, List.countP_cons, procHoldsPermit]
          refine ⟨h1, ?_, ?_, fun hst => ?_⟩
          · simp only [seededCount]
            omega
          · simp only [permitsOutside, seededCount, dispPermits, e2]
            omega
          · have h5 := h4 hst
            simp only [permitsOutside, seededCount, dispPermits, e2]
            omega
      | false =>
          simp only [seededCount, dispPermits] at h2 h3 h4
          have e2 : (s.procs ++ [(⟨false, ProcPhase.running⟩ : Proc)]).countP procHoldsPermit
              = s.procs.countP procHoldsPermit := by
            simp [List.countP_append, List.countP_cons, procHoldsPermit]
          refine ⟨h1, ?_, ?_, fun hst => ?_⟩
          · simp only [seededCount]
            omega
          · simp only [permitsOutside, seededCount, dispPermits, e2]
            omega
          · have h5 := h4 hst
            simp only [permitsOutside, seededCount, dispPermits, e2]
            omega
  | pollerExit s l₁ l₂ hp hstop =>
      have e1 : (l₁ ++ PollerPhase.pSelect :: l₂).countP pollerHoldsPermit
          = l₁.countP pollerHoldsPermit + l₂.countP pollerHoldsPermit := by
        simp [countP_mid, pollerHoldsPermit]
      have e2 : (l₁ ++ PollerPhase.pDone :: l₂).countP pollerHoldsPermit
          = l₁.countP pollerHoldsPermit + l₂.countP pollerHoldsPermit := by
        simp [countP_mid, pollerHoldsPermit]
      rw [hp] at h1 h3 h4
      rw [e1] at h3 h4
      refine ⟨?_, h2, ?_, fun hst => ?_⟩
      · show (l₁ ++ PollerPhase.pDone :: l₂).length = cfg.pollerCount
        simpa using h1
      · simp only [permitsOutside, e2]
        omega
      · simp [hstop] at hst
  | takePermit s l₁ l₂ hp hc =>
      have e1 : (l₁ ++ PollerPhase.pSelect :: l₂).countP pollerHoldsPermit
          = l₁.countP pollerHoldsPermit + l₂.countP pollerHoldsPermit := by
        simp [countP_mid, pollerHoldsPermit]
      have e2 : (l₁ ++ PollerPhase.pPolling :: l₂).countP pollerHoldsPermit
          = l₁.countP pollerHoldsPermit + (l₂.countP pollerHoldsPermit + 1) := by
        simp [countP_mid, pollerHoldsPermit]
      rw [hp] at h1 h3 h4
      rw [e1] at h3 h4
      refine ⟨?_, h2, ?_, fun hst => ?_⟩
      · show (l₁ ++ PollerPhase.pPolling :: l₂).length = cfg.pollerCount
        simpa using h1
      · simp only [permitsOutside, e2]
        omega
      · have h5 := h4 hst
        simp only [permitsOutside, e2]
        omega
  | pollInvoke s l₁ l₂ otask ec hp =>
      have e1 : (l₁ ++ PollerPhase.pPolling :: l₂).countP pollerHoldsPermit
          = l₁.countP pollerHoldsPermit + (l₂.countP pollerHoldsPermit + 1) := by
        simp [countP_mid, pollerHoldsPermit]
      rw [hp] at h1 h3 h4
      rw [e1] at h3 h4
      cases otask with
      | some t =>
          have e2 : (l₁ ++ pollResultPhase (some t) :: l₂).countP pollerHoldsPermit
              = l₁.countP pollerHoldsPermit + (l₂.countP pollerHoldsPermit + 1) := by
            simp [countP_mid, pollResultPhase, pollerHoldsPermit]
          refine ⟨?_, h2, ?_, fun hst => ?_⟩
          · show (l₁ ++ pollResultPhase (some t) :: l₂).length = cfg.pollerCount
            simp only [pollResultPhase]
            simpa using h1
          · simp only [permitsOutside, e2]
            omega
          · have h5 := h4 hst
            simp only [permitsOutside, e2]
            omega
      | none =>
          have e2 : (l₁ ++ pollResultPhase none :: l₂).countP pollerHoldsPermit
              = l₁.countP pollerHoldsPermit + (l₂.countP pollerHoldsPermit + 1) := by
            simp [countP_mid, pollResultPhase, pollerHoldsPermit]
          refine ⟨?_, h2, ?_, fun hst => ?_⟩
          · show (l₁ ++ pollResultPhase none :: l₂).length = cfg.pollerCount
            simp only [pollResultPhase]
            simpa using h1
          · simp only [permitsOutside, e2]
            omega
          · have h5 := h4 hst
            simp only [permitsOutside, e2]
            omega
  | pollSkipped s l₁ l₂ hp hrate hstop =>
      have e1 : (l₁ ++ PollerPhase.pPolling :: l₂).countP pollerHoldsPermit
          = l₁.countP pollerHoldsPermit + (l₂.countP pollerHoldsPermit + 1) := by
        simp [countP_mid, pollerHoldsPermit]
      have e2 : (l₁ ++ PollerPhase.pReturning :: l₂).countP pollerHoldsPermit
          = l₁.countP pollerHoldsPermit + (l₂.countP pollerHoldsPermit + 1) := by
        simp [countP_mid, pollerHoldsPermit]
      rw [hp] at h1 h3 h4
      rw [e1] at h3 h4
      refine ⟨?_, h2, ?_, fun hst => ?_⟩
      · show (l₁ ++ PollerPhase.pReturning :: l₂).length = cfg.pollerCount
        simpa using h1
      · simp only [permitsOutside, e2]
        omega
      · simp [hstop] at hst
  | offerDrop s t l₁ l₂ hp hstop =>
      have e1 : (l₁ ++ PollerPhase.pOffering t :: l₂).countP pollerHoldsPermit
          = l₁.countP pollerHoldsPermit + (l₂.countP pollerHoldsPermit + 1) := by
        simp [countP_mid, pollerHoldsPermit]
      have e2 : (l₁ ++ PollerPhase.pSelect :: l₂).countP pollerHoldsPermit
          = l₁.countP pollerHoldsPermit + l₂.countP pollerHoldsPermit := by
        simp [countP_mid, pollerHoldsPermit]
      rw [hp] at h1 h3 h4
      rw [e1] at h3 h4
      refine ⟨?_, h2, ?_, fun hst => ?_⟩
      · show (l₁ ++ PollerPhase.pSelect :: l₂).length = cfg.pollerCount
        simpa using h1
      · simp only [permitsOutside, e2]
        omega
      · simp [hstop] at hst
  | pollerRearm s l₁ l₂ hp hroom =>
      have e1 : (l₁ ++ PollerPhase.pReturning :: l₂).countP pollerHoldsPermit
          = l₁.countP pollerHoldsPermit + (l₂.countP pollerHoldsPermit + 1) := by
        simp [countP_mid, pollerHoldsPermit]
      have e2 : (l₁ ++ PollerPhase.pSelect :: l₂).countP pollerHoldsPermit
          = l₁.countP pollerHoldsPermit + l₂.countP pollerHoldsPermit := by
        simp [countP_mid, pollerHoldsPermit]
      rw [hp] at h1 h3 h4
      rw [e1] at h3 h4
      refine ⟨?_, h2, ?_, fun hst => ?_⟩
      · show (l₁ ++ PollerPhase.pSelect :: l₂).length = cfg.pollerCount
        simpa using h1
      · simp only [permitsOutside, e2]
        omega
      · have h5 := h4 hst
        simp only [permitsOutside, e2]
        omega
  | procReturn s pk polled l₁ l₂ hp =>
      cases polled with
      | true =>
          have e1 : (l₁ ++ (⟨true, ProcPhase.running⟩ : Proc) :: l₂).countP procHoldsPermit
              = l₁.countP procHoldsPermit + (l₂.countP procHoldsPermit + 1) := by
            simp [countP_mid, procHoldsPermit]
          have e2 : (l₁ ++ (⟨true, procDonePhase true⟩ : Proc) :: l₂).countP procHoldsPermit
              = l₁.countP procHoldsPermit + (l₂.countP procHoldsPermit + 1) := by
            simp [countP_mid, procDonePhase, procHoldsPermit]
          rw [hp] at h3 h4
          rw [e1] at h3 h4
          refine ⟨h1, h2, ?_, fun hst => ?_⟩
          · simp only [permitsOutside, e2]
            omega
          · have h5 := h4 hst
            simp only [permitsOutside, e2]
            omega
      | false =>
          have e1 : (l₁ ++ (⟨false, ProcPhase.running⟩ : Proc) :: l₂).countP procHoldsPermit
              = l₁.countP procHoldsPermit + l₂.countP procHoldsPermit := by
            simp [countP_mid, procHoldsPermit]
          have e2 : (l₁ ++ (⟨false, procDonePhase false⟩ : Proc) :: l₂).countP procHoldsPermit
              = l₁.countP procHoldsPermit + l₂.countP procHoldsPermit := by
            simp [countP_mid, procDonePhase, procHoldsPermit]
          rw [hp] at h3 h4
          rw [e1] at h3 h4
          refine ⟨h1, h2, ?_, fun hst => ?_⟩
          · simp only [permitsOutside, e2]
            omega
          · have h5 := h4 hst
            simp only [permitsOutside, e2]
            omega
  | procRearm s l₁ l₂ hp hroom =>
      have e1 : (l₁ ++ (⟨true, ProcPhase.returningPermit⟩ : Proc) :: l₂).countP procHoldsPermit
          = l₁.countP procHoldsPermit + (l₂.countP procHoldsPermit + 1) := by
        simp [countP_mid, procHoldsPermit]
      have e2 : (l₁ ++ (⟨true, ProcPhase.done⟩ : Proc) :: l₂).countP procHoldsPermit
          = l₁.countP procHoldsPermit + l₂.countP procHoldsPermit := by
        simp [countP_mid, procHoldsPermit]
      rw [hp] at h3 h4
      rw [e1] at h3 h4
      refine ⟨h1, h2, ?_, fun hst => ?_⟩
      · simp only [permitsOutside, e2]
        omega
      · have h5 := h4 hst
        simp only [permitsOutside, e2]
        omega
  | stopSignal s hcl =>
      refine ⟨h1, h2, ?_, fun hst => ?_⟩
      · simp only [permitsOutside]
        omega
      · simp at hst

theorem inv_reachable {cfg : BaseWorkerOptions} {s : EngineState}
    (h : Reachable cfg s) : Inv cfg s := by
  induction h with
  | init => exact inv_init cfg
  | step _ hstep ih => exact inv_step hstep ih

/-! Lifecycle: the sequential `Start` / `Stop` methods of `baseWorker`. -/

/-- Lifecycle-relevant fields of `baseWorker`, plus cumulative counters
of the goroutines launched and of the `WorkerStartCounter` metric, so
that "same effect" of repeated `Start` calls is observable. -/
structure WorkerLC where
  isWorkerStarted : Bool
  stopChClosed : Bool
  limiterCancelled : Bool
  pollersLaunched : Nat
  dispatchersLaunched : Nat
  workerStartCounter : Nat
  deriving DecidableEq, Repr

/-- The worker as `newBaseWorker` constructs it: not started, stop
channel open, nothing launched. -/
def newWorkerLC : WorkerLC :=
  { isWorkerStarted := false
    stopChClosed := false
    limiterCancelled := false
    pollersLaunched := 0
    dispatchersLaunched := 0
    workerStartCounter := 0 }

/-- Embedding of `baseWorker.Start()`: returns early when
`isWorkerStarted` is already set, otherwise bumps the start metric,
launches `pollerCount` poller goroutines and one dispatcher goroutine,
and sets the flag. -/
def startLC (cfg : BaseWorkerOptions) (bw : WorkerLC) : WorkerLC :=
  if bw.isWorkerStarted then bw
  else
    { bw with
        workerStartCounter := bw.workerStartCounter + 1
        pollersLaunched := bw.pollersLaunched + cfg.pollerCount
        dispatchersLaunched := bw.dispatchersLaunched + 1
        isWorkerStarted := true }

/-- Embedding of Go's `close(ch)` on the stop channel: closing an
already-closed channel panics, which `none` records. -/
def closeChan (alreadyClosed : Bool) : Option Unit :=
  if alreadyClosed then none else some ()

/-- Embedding of `baseWorker.Stop()`'s sequential control flow:
returns the worker unchanged when never started; otherwise performs
`close(bw.stopCh)` — a runtime panic (`none`) when the channel is
already closed — and then cancels the limiter context.  The blocking
wait on the WaitGroup does not change the worker's fields and is
modelled separately by `stopReturnTime`. -/
def stopLC (bw : WorkerLC) : Option WorkerLC :=
  if !bw.isWorkerStarted then some bw
  else
    match closeChan bw.stopChClosed with
    | none => none
    | some _ => some { bw with stopChClosed := true, limiterCancelled := true }

/-- Modelled from the spec: `awaitWaitGroup(&bw.stopWG, bw.options.stopTimeout)`
is code of this repository not under src/.  Per the spec, `Stop()`
blocks until the completion tracker reaches zero or `stopTimeout`
elapses, whichever first; with `drainDone` the instant all tracked
routines finish, `Stop()` therefore unblocks at the earlier of
`drainDone` and `stopTimeout`. -/
def stopReturnTime (drainDone stopTimeout : Nat) : Nat :=
  min drainDone stopTimeout

/-! Poll retry policy.  The interval constants are from
`internal_worker_base.go`; the backoff computation itself lives in the
`internal/common/backoff` package, which is not under src/. -/

/-- Constant `retryPollOperationInitialInterval` (20ms), in
milliseconds. -/
def retryPollOperationInitialInterval : Nat := 20

/-- Constant `retryPollOperationMaxInterval` (10s), in milliseconds. -/
def retryPollOperationMaxInterval : Nat := 10000

/-- Modelled from the spec: the `backoff` package's
`ExponentialRetryPolicy`/`ConcurrentRetrier` are not under src/.  Per
the spec, the retrier computes an exponential backoff delay from the
consecutive-failure count, starting at the initial interval and capped
at the maximum interval; with the conventional doubling coefficient,
the throttle delay after `c` consecutive failures (zero when there has
been no failure) is as below. -/
def throttleDelayMs (c : Nat) : Nat :=
  if c = 0 then 0
  else min (retryPollOperationInitialInterval * 2 ^ (c - 1)) retryPollOperationMaxInterval

/-- Modelled from the spec: `ConcurrentRetrier.Failed()` increments
the consecutive-failure count. -/
def retrierFailed (c : Nat) : Nat := c + 1

/-- Modelled from the spec: `ConcurrentRetrier.Succeeded()` resets the
consecutive-failure count. -/
def retrierSucceeded (_ : Nat) : Nat := 0

/-- Embedding of `createPollRetryPolicy`'s
`policy.SetExpirationInterval(backoff.NoInterval)`: the policy never
expires, whatever the failure count. -/
def retrierExpired (_ : Nat) : Bool := false

/-! Concrete configurations and traces used by witnesses and
counterexamples. -/

/-- A minimal configuration: one poller, one permit, no poll limiter. -/
def cfg1 : BaseWorkerOptions :=
  { pollerCount := 1, pollerRate := 0, maxConcurrentTask := 1,
    maxTaskPerSecond := 1, stopTimeout := 1000, identity := "i", workerType := "t" }

/-- A configuration with one poller but two permits. -/
def cfg2 : BaseWorkerOptions :=
  { pollerCount := 1, pollerRate := 0, maxConcurrentTask := 2,
    maxTaskPerSecond := 1, stopTimeout := 1000, identity := "i", workerType := "t" }

def sA0 : EngineState :=
  { stopClosed := false, permitCh := 0, pollers := [.pSelect],
    dispatcher := .dSeeding 0, procs := [], panicCount := 0, retrierFails := 0 }

def sA1 : EngineState := { sA0 with dispatcher := .dSeeding 1, permitCh := 1 }

def sA2 : EngineState := { sA1 with dispatcher := .dSelect }

def sA3 : EngineState := { sA2 with stopClosed := true }

def sA4 : EngineState := { sA3 with pollers := [.pPolling], permitCh := 0 }

def sA5 : EngineState := { sA4 with pollers := [.pOffering 3] }

theorem reach_sA0 : Reachable cfg1 sA0 := Reachable.init

theorem reach_sA1 : Reachable cfg1 sA1 :=
  Reachable.step reach_sA0 (Step.seedPermit sA0 0 rfl (by decide) (by decide))

theorem reach_sA2 : Reachable cfg1 sA2 :=
  Reachable.step reach_sA1 (Step.seedDone sA1 rfl)

theorem reach_sA3 : Reachable cfg1 sA3 :=
  Reachable.step reach_sA2 (Step.stopSignal sA2 rfl)

theorem step_sA34 : Step cfg1 .takePermit sA3 sA4 :=
  Step.takePermit sA3 [] [] rfl (by decide)

theorem reach_sA4 : Reachable cfg1 sA4 :=
  Reachable.step reach_sA3 step_sA34

theorem step_sA45 : Step cfg1 (.pollInvoke (some 3) .noErr) sA4 sA5 :=
  Step.pollInvoke sA4 [] [] (some 3) .noErr rfl

def sB3 : EngineState := { sA2 with pollers := [.pPolling], permitCh := 0 }

def sB4 : EngineState := { sB3 with pollers := [.pOffering 3] }

def sB5 : EngineState :=
  { sB4 with pollers := [.pSelect], dispatcher := .dWaitLimiter 3 }

def sB6 : EngineState := { sB5 with dispatcher := .dSpawn 3 true }

def sB7 : EngineState :=
  { sB6 with dispatcher := .dSelect, procs := [⟨true, .running⟩] }

def sB7panic : EngineState :=
  { sB7 with procs := [⟨true, .returningPermit⟩], panicCount := 1 }

def sB8 : EngineState := { sB7 with procs := [⟨true, .returningPermit⟩] }

def sB9 : EngineState := { sB8 with stopClosed := true }

theorem reach_sB3 : Reachable cfg1 sB3 :=
  Reachable.step reach_sA2 (Step.takePermit sA2 [] [] rfl (by decide))

theorem reach_sB4 : Reachable cfg1 sB4 :=
  Reachable.step reach_sB3 (Step.pollInvoke sB3 [] [] (some 3) .noErr rfl)

theorem step_sB45 : Step cfg1 (.offerDeliver 3) sB4 sB5 :=
  Step.offerDeliver sB4 3 [] [] rfl rfl

theorem reach_sB5 : Reachable cfg1 sB5 := Reachable.step reach_sB4 step_sB45

theorem step_sB56 : Step cfg1 (.limiterToken 3) sB5 sB6 :=
  Step.limiterToken sB5 3 rfl

theorem reach_sB6 : Reachable cfg1 sB6 := Reachable.step reach_sB5 step_sB56

theorem reach_sB7 : Reachable cfg1 sB7 :=
  Reachable.step reach_sB6 (Step.spawnProc sB6 3 true rfl)

theorem reach_sB8 : Reachable cfg1 sB8 :=
  Reachable.step reach_sB7 (Step.procReturn sB7 false true [] [] rfl)

theorem reach_sB9 : Reachable cfg1 sB9 :=
  Reachable.step reach_sB8 (Step.stopSignal sB8 rfl)

def sC4 : EngineState := { sB3 with pollers := [.pReturning], retrierFails := 1 }

def sC5 : EngineState := { sC4 with pollers := [.pSelect], permitCh := 1 }

def sD0 : EngineState :=
  { stopClosed := false, permitCh := 0, pollers := [.pSelect],
    dispatcher := .dSeeding 0, procs := [], panicCount := 0, retrierFails := 0 }

def sD3 : EngineState := { sD0 with permitCh := 2, dispatcher := .dSelect }

def sD4 : EngineState := { sD3 with pollers := [.pPolling], permitCh := 1 }

def sD5 : EngineState := { sD4 with pollers := [.pOffering 7] }

def sD6 : EngineState :=
  { sD5 with pollers := [.pSelect], dispatcher := .dWaitLimiter 7 }

def sD7 : EngineState := { sD6 with pollers := [.pPolling], permitCh := 0 }

def sD8 : EngineState := { sD7 with pollers := [.pOffering 8] }

theorem reach_sD3 : Reachable cfg2 sD3 :=
  Reachable.step
    (Reachable.step
      (Reachable.step Reachable.init
        (Step.seedPermit sD0 0 rfl (by decide) (by decide)))
      (Step.seedPermit { sD0 with permitCh := 1, dispatcher := .dSeeding 1 } 1
        rfl (by decide) (by decide)))
    (Step.seedDone { sD0 with permitCh := 2, dispatcher := .dSeeding 2 } rfl)

theorem reach_sD8 : Reachable cfg2 sD8 :=
  Reachable.step
    (Reachable.step
      (Reachable.step
        (Reachable.step
          (Reachable.step reach_sD3 (Step.takePermit sD3 [] [] rfl (by decide)))
          (Step.pollInvoke sD4 [] [] (some 7) .noErr rfl))
        (Step.offerDeliver sD5 7 [] [] rfl rfl))
      (Step.takePermit sD6 [] [] rfl (by decide)))
    (Step.pollInvoke sD7 [] [] (some 8) .noErr rfl)

/-! Claim theorems. -/

/-- C1: for every configuration with `maxConcurrentTask = N`, the
dispatcher pre-loads the permit channel and in every reachable state at
most `N` permits are outside the channel (at most `N` tasks checked
out); once pre-loading has finished and while the engine is not
stopping, the permits in the channel plus the permits checked out equal
exactly `N` — never leaked, never double-issued. -/
theorem C1_permit_conservation (cfg : BaseWorkerOptions) (s : EngineState)
    (h : Reachable cfg s) :
    permitsOutside s ≤ cfg.maxConcurrentTask ∧
    s.permitCh + permitsOutside s ≤ cfg.maxConcurrentTask ∧
    ((∀ k, s.dispatcher ≠ .dSeeding k) → s.stopClosed = false →
      s.permitCh + permitsOutside s = cfg.maxConcurrentTask) := by
  obtain ⟨h1, h2, h3, h4⟩ := inv_reachable h
  refine ⟨by omega, by omega, fun hns hst => ?_⟩
  have h5 := h4 hst
  have h6 : seededCount cfg s.dispatcher = cfg.maxConcurrentTask := by
    cases hds : s.dispatcher
    · exact absurd hds (hns _)
    · rfl
    · rfl
    · rfl
    · rfl
  omega

/-- Witness for C1 at the concrete reachable state `sA2` (seeding
finished, one permit in the channel, none checked out). -/
theorem C1_permit_conservation_witness :
    permitsOutside sA2 ≤ cfg1.maxConcurrentTask ∧
    sA2.permitCh + permitsOutside sA2 ≤ cfg1.maxConcurrentTask ∧
    ((∀ k, sA2.dispatcher ≠ .dSeeding k) → sA2.stopClosed = false →
      sA2.permitCh + permitsOutside sA2 = cfg1.maxConcurrentTask) :=
  C1_permit_conservation cfg1 sA2 reach_sA2

/-- C6: consecutive `Failed()` calls give a non-decreasing delay
sequence that starts at the 20ms initial interval, is capped at the 10s
maximum interval and never reaches an expired state; one `Succeeded()`
resets the next computed delay to the initial interval. -/
theorem C6_backoff_policy :
    (∀ c : Nat, throttleDelayMs (c + 1) ≤ throttleDelayMs (c + 2)) ∧
    throttleDelayMs (retrierFailed 0) = retryPollOperationInitialInterval ∧
    (∀ c : Nat, throttleDelayMs c ≤ retryPollOperationMaxInterval) ∧
    (∀ c : Nat, retrierExpired c = false) ∧
    (∀ c : Nat,
      throttleDelayMs (retrierFailed (retrierSucceeded c))
        = retryPollOperationInitialInterval) := by
  refine ⟨fun c => ?_, by decide, fun c => ?_, fun c => rfl, fun c => rfl⟩
  · simp only [throttleDelayMs, Nat.add_sub_cancel, Nat.succ_ne_zero, if_false]
    exact min_le_min
      (Nat.mul_le_mul (le_refl _) (Nat.pow_le_pow_right (by decide) (by omega)))
      (le_refl _)
  · by_cases hc : c = 0
    · simp [throttleDelayMs, hc, retryPollOperationMaxInterval]
    · simp only [throttleDelayMs, hc, if_false]
      exact min_le_right _ _

/-- C4 counterexample: on a started worker the first `Stop()` returns
normally but a second `Stop()` reaches `close(bw.stopCh)` with the stop
channel already closed and panics — so `Stop()` twice in a row is not
a no-op. -/
theorem C4_counterexample :
    (stopLC (startLC cfg1 newWorkerLC)).bind stopLC = none ∧
    stopLC (startLC cfg1 newWorkerLC) ≠ none := by
  exact ⟨rfl, by decide⟩

/-- C4 (amended): `Start()` twice has the same effect as once; `Stop()`
before `Start()` is a no-op, and so is a second such `Stop()`; but
after `Start()`, the first `Stop()` returns normally and a second
`Stop()` closes the already-closed stop channel and panics instead of
being a no-op. -/
theorem C4_lifecycle_amended :
    (∀ (cfg : BaseWorkerOptions) (w : WorkerLC),
        startLC cfg (startLC cfg w) = startLC cfg w) ∧
    (∀ w : WorkerLC, w.isWorkerStarted = false →
        stopLC w = some w ∧ (stopLC w).bind stopLC = some w) ∧
    (∀ w : WorkerLC, w.isWorkerStarted = true → w.stopChClosed = false →
        ∃ w', stopLC w = some w' ∧ w'.stopChClosed = true ∧ stopLC w' = none) := by
  refine ⟨fun cfg w => ?_, fun w hw => ?_, fun w hw hc => ?_⟩
  · by_cases hw : w.isWorkerStarted <;> simp [startLC, hw]
  · simp [stopLC, hw]
  · refine ⟨{ w with stopChClosed := true, limiterCancelled := true }, ?_, rfl, ?_⟩
    · simp [stopLC, hw, closeChan, hc]
    · simp [stopLC, hw, closeChan]

/-- Witness for C4 (amended) at the freshly constructed worker and a
started worker. -/
theorem C4_lifecycle_amended_witness :
    (stopLC newWorkerLC = some newWorkerLC ∧
      (stopLC newWorkerLC).bind stopLC = some newWorkerLC) ∧
    startLC cfg1 (startLC cfg1 newWorkerLC) = startLC cfg1 newWorkerLC ∧
    (∃ w', stopLC (startLC cfg1 newWorkerLC) = some w' ∧
      w'.stopChClosed = true ∧ stopLC w' = none) :=
  ⟨C4_lifecycle_amended.2.1 newWorkerLC rfl,
   C4_lifecycle_amended.1 cfg1 newWorkerLC,
   C4_lifecycle_amended.2.2 (startLC cfg1 newWorkerLC) rfl rfl⟩

/-- The started-then-stopped worker under `cfg1`, written out. -/
def wStopped : WorkerLC :=
  { isWorkerStarted := true, stopChClosed := true, limiterCancelled := true,
    pollersLaunched := 1, dispatchersLaunched := 1, workerStartCounter := 1 }

/-- C10: `Stop()` never resets `isWorkerStarted`, so after a
successful `Stop()` a later `Start()` finds the flag still set, changes
nothing and launches no new poller or dispatcher routines — the engine
cannot be restarted on the same instance. -/
theorem C10_no_restart (cfg : BaseWorkerOptions) (w w' : WorkerLC)
    (hs : w.isWorkerStarted = true) (hst : stopLC w = some w') :
    w'.isWorkerStarted = true ∧ startLC cfg w' = w' := by
  by_cases hc : w.stopChClosed
  · simp [stopLC, hs, hc, closeChan] at hst
  · simp [stopLC, hs, hc, closeChan] at hst
    subst hst
    exact ⟨rfl, by simp [startLC]⟩

/-- Witness for C10: stop the started worker concretely, then check
`Start()` is inert on the result. -/
theorem C10_no_restart_witness :
    wStopped.isWorkerStarted = true ∧ startLC cfg1 wStopped = wStopped :=
  C10_no_restart cfg1 (startLC cfg1 newWorkerLC) wStopped rfl rfl

/-- A poller phase whose `runPoller` loop has returned. -/
def pollerDone : PollerPhase → Bool
  | .pDone => true
  | _ => false

/-- State `sA3` after its poller takes the exit branch of the select. -/
def sA3exit : EngineState := { sA3 with pollers := [.pDone] }

/-- C2 counterexample: a concrete reachable stopped state where a
poller, having won `runPoller`'s select race against the closed stop
channel and taken a permit, begins a `PollTask()` invocation — so
`Stop()` does not cause "no further `PollTask()` invocations to
begin".  The permit-take itself also happens after the stop channel is
closed. -/
theorem C2_counterexample :
    Reachable cfg1 sA4 ∧ sA4.stopClosed = true ∧
    sA3.stopClosed = true ∧ Step cfg1 .takePermit sA3 sA4 ∧
    Step cfg1 (.pollInvoke (some 3) .noErr) sA4 sA5 :=
  ⟨reach_sA4, rfl, rfl, step_sA34, step_sA45⟩

/-- C2 (amended): after `Stop()` closes the stop channel, every poller
at its select can take the exit branch, and a poller that has exited
never un-exits (exited pollers never poll again); a poller that instead
wins the select race on the permit channel may still begin a
`PollTask()` after `Stop()`; and `Stop()` unblocks at the earlier of
the completion of all tracked routines and `stopTimeout`. -/
theorem C2_graceful_stop_amended :
    (∀ (cfg : BaseWorkerOptions) (s : EngineState) (l₁ l₂ : List PollerPhase),
        s.stopClosed = true → s.pollers = l₁ ++ .pSelect :: l₂ →
        Step cfg .pollerExit s { s with pollers := l₁ ++ .pDone :: l₂ }) ∧
    (∀ (cfg : BaseWorkerOptions) (lb : StepLabel) (s s' : EngineState),
        Step cfg lb s s' →
        s.pollers.countP pollerDone ≤ s'.pollers.countP pollerDone) ∧
    (∀ d t : Nat, stopReturnTime d t ≤ t ∧ (d ≤ t → stopReturnTime d t = d)) := by
  refine ⟨fun cfg s l₁ l₂ hstop hp => Step.pollerExit s l₁ l₂ hp hstop,
    fun cfg lb s s' h => ?_, fun d t => ⟨min_le_right _ _, fun h => min_eq_left h⟩⟩
  cases h with
  | seedPermit s k hd hk hroom => simp
  | seedDone s hd => simp
  | dispatchExit s hd hstop => simp
  | offerDeliver s t l₁ l₂ hp hd => rw [hp]; simp [countP_mid, pollerDone]
  | localInject s t hd => simp
  | limiterToken s t hd => simp
  | limiterCancel s t hd hstop => simp
  | spawnProc s t polled hd => simp
  | pollerExit s l₁ l₂ hp hstop =>
      rw [hp]
      simp [countP_mid, pollerDone]
  | takePermit s l₁ l₂ hp hc => rw [hp]; simp [countP_mid, pollerDone]
  | pollInvoke s l₁ l₂ otask ec hp =>
      rw [hp]
      cases otask <;> simp [countP_mid, pollerDone, pollResultPhase]
  | pollSkipped s l₁ l₂ hp hrate hstop => rw [hp]; simp [countP_mid, pollerDone]
  | offerDrop s t l₁ l₂ hp hstop => rw [hp]; simp [countP_mid, pollerDone]
  | pollerRearm s l₁ l₂ hp hroom => rw [hp]; simp [countP_mid, pollerDone]
  | procReturn s pk polled l₁ l₂ hp => simp
  | procRearm s l₁ l₂ hp hroom => simp
  | stopSignal s hcl => simp

/-- Witness for C2 (amended): the exit step at the concrete stopped
state `sA3`, and the stop-return bound at concrete times. -/
theorem C2_graceful_stop_amended_witness :
    Step cfg1 .pollerExit sA3 sA3exit ∧
    stopReturnTime 5 1000 ≤ 1000 ∧ stopReturnTime 5 1000 = 5 :=
  ⟨C2_graceful_stop_amended.1 cfg1 sA3 [] [] rfl rfl,
   (C2_graceful_stop_amended.2.2 5 1000).1,
   (C2_graceful_stop_amended.2.2 5 1000).2 (by decide)⟩

/-- C3: a panic inside `ProcessTask` is recovered by `processTask`'s
deferred handler and never propagates: the panic step is an ordinary
transition that leaves pollers, dispatcher and stop signal untouched,
bumps the panic counter by exactly one (and nothing else ever bumps
it), sends a poll-sourced task on to its permit-returning send, and in
every reachable state that pending permit return is enabled, so the
engine keeps accepting and completing tasks. -/
theorem C3_panic_isolation :
    (∀ (cfg : BaseWorkerOptions) (s : EngineState) (pk polled : Bool)
        (l₁ l₂ : List Proc), s.procs = l₁ ++ ⟨polled, .running⟩ :: l₂ →
        Step cfg (.procReturn pk polled) s
          { s with procs := l₁ ++ ⟨polled, procDonePhase polled⟩ :: l₂,
                   panicCount := bumpPanic pk s.panicCount } ∧
        bumpPanic true s.panicCount = s.panicCount + 1 ∧
        procDonePhase true = .returningPermit) ∧
    (∀ (cfg : BaseWorkerOptions) (lb : StepLabel) (s s' : EngineState),
        Step cfg lb s s' →
        s'.panicCount = s.panicCount ∨
        (s'.panicCount = s.panicCount + 1 ∧
          ∃ polled, lb = .procReturn true polled)) ∧
    (∀ (cfg : BaseWorkerOptions) (s : EngineState), Reachable cfg s →
        ∀ (l₁ l₂ : List Proc), s.procs = l₁ ++ ⟨true, .returningPermit⟩ :: l₂ →
        Step cfg .procRearm s
          { s with procs := l₁ ++ ⟨true, .done⟩ :: l₂,
                   permitCh := s.permitCh + 1 }) := by
  refine ⟨fun cfg s pk polled l₁ l₂ hp =>
      ⟨Step.procReturn s pk polled l₁ l₂ hp, rfl, rfl⟩,
    fun cfg lb s s' h => ?_, fun cfg s h l₁ l₂ hp => ?_⟩
  · cases h <;> try exact Or.inl rfl
    next pk polled l₁ l₂ hp =>
      cases pk
      · exact Or.inl rfl
      · exact Or.inr ⟨rfl, polled, rfl⟩
  · obtain ⟨h1, h2, h3, h4⟩ := inv_reachable h
    have hlt : s.permitCh < cfg.maxConcurrentTask := by
      have e1 : s.procs.countP procHoldsPermit
          = l₁.countP procHoldsPermit + (l₂.countP procHoldsPermit + 1) := by
        rw [hp]
        simp [countP_mid, procHoldsPermit]
      simp only [permitsOutside] at h3
      omega
    exact Step.procRearm s l₁ l₂ hp hlt

/-- Witness for C3 at the concrete state `sB7` (one poll-sourced task
in flight): its processor panics, the counter goes from 0 to 1, and at
the reachable state `sB8` the permit return is enabled. -/
theorem C3_panic_isolation_witness :
    Step cfg1 (.procReturn true true) sB7 sB7panic ∧
    sB7panic.panicCount = sB7.panicCount + 1 ∧
    Step cfg1 .procRearm sB8
      { sB8 with procs := [] ++ ⟨true, .done⟩ :: [],
                 permitCh := sB8.permitCh + 1 } :=
  ⟨(C3_panic_isolation.1 cfg1 sB7 true true [] [] rfl).1, rfl,
   C3_panic_isolation.2.2 cfg1 sB8 reach_sB8 [] [] rfl⟩

/-- C5 counterexample: at the concrete reachable state `sB3` a poll
returning a transient error calls `Failed()` on the retrier AND still
moves the poller to the permit-returning send, whose next step puts the
permit straight back into the channel — the transient case re-arms
immediately, exactly like the non-transient case, contradicting
"does not re-arm immediately". -/
theorem C5_counterexample :
    Reachable cfg1 sB3 ∧
    Step cfg1 (.pollInvoke none .transient) sB3 sC4 ∧
    sC4.retrierFails = sB3.retrierFails + 1 ∧
    sC4.pollers = [PollerPhase.pReturning] ∧
    Step cfg1 .pollerRearm sC4 sC5 ∧
    sC5.permitCh = sC4.permitCh + 1 :=
  ⟨reach_sB3, Step.pollInvoke sB3 [] [] none .transient rfl, rfl, rfl,
   Step.pollerRearm sC4 [] [] rfl (by decide), rfl⟩

/-- C5 (amended): on a poll outcome, `Failed()` is called exactly when
the error is transient (incrementing the consecutive-failure count) and
`Succeeded()` (a reset to zero) otherwise, including on non-transient
errors; in both error cases the task is nil, so the poller proceeds to
the permit-returning send and the permit re-enters the channel
immediately — the backoff delay is instead absorbed by `Throttle()` at
the start of the next poll attempt. -/
theorem C5_poll_outcome_amended :
    (∀ (cfg : BaseWorkerOptions) (s : EngineState) (l₁ l₂ : List PollerPhase)
        (otask : Option Nat) (ec : ErrClass),
        s.pollers = l₁ ++ .pPolling :: l₂ →
        Step cfg (.pollInvoke otask ec) s
          { s with pollers := l₁ ++ pollResultPhase otask :: l₂,
                   retrierFails := updateRetrier ec s.retrierFails } ∧
        updateRetrier .transient s.retrierFails = s.retrierFails + 1 ∧
        updateRetrier .nonTransient s.retrierFails = 0 ∧
        pollResultPhase none = .pReturning) ∧
    (∀ (cfg : BaseWorkerOptions) (s : EngineState) (l₁ l₂ : List PollerPhase),
        s.pollers = l₁ ++ .pReturning :: l₂ →
        s.permitCh < cfg.maxConcurrentTask →
        Step cfg .pollerRearm s
          { s with pollers := l₁ ++ .pSelect :: l₂,
                   permitCh := s.permitCh + 1 }) :=
  ⟨fun cfg s l₁ l₂ otask ec hp =>
      ⟨Step.pollInvoke s l₁ l₂ otask ec hp, rfl, rfl, rfl⟩,
   fun cfg s l₁ l₂ hp hroom => Step.pollerRearm s l₁ l₂ hp hroom⟩

/-- Witness for C5 (amended) at the concrete states `sB3` and `sC4`. -/
theorem C5_poll_outcome_amended_witness :
    (Step cfg1 (.pollInvoke none .nonTransient) sB3
        { sB3 with pollers := [] ++ pollResultPhase none :: [],
                   retrierFails := updateRetrier .nonTransient sB3.retrierFails } ∧
      updateRetrier .transient sB3.retrierFails = sB3.retrierFails + 1 ∧
      updateRetrier .nonTransient sB3.retrierFails = 0 ∧
      pollResultPhase none = .pReturning) ∧
    Step cfg1 .pollerRearm sC4
      { sC4 with pollers := [] ++ PollerPhase.pSelect :: [],
                 permitCh := sC4.permitCh + 1 } :=
  ⟨C5_poll_outcome_amended.1 cfg1 sB3 [] [] none .nonTransient rfl,
   C5_poll_outcome_amended.2 cfg1 sC4 [] [] rfl (by decide)⟩

/-- C7: even once stopping has begun, a `processTask` goroutine at the
deferred permit-returning send can always complete it: in every
reachable state the permit channel (capacity `maxConcurrentTask`) has
room, because at most `maxConcurrentTask` permits exist in total and
the sender holds one of them — no goroutine is left blocked forever on
the permit channel. -/
theorem C7_permit_return_completes (cfg : BaseWorkerOptions) (s : EngineState)
    (h : Reachable cfg s) (hstop : s.stopClosed = true)
    (l₁ l₂ : List Proc) (hp : s.procs = l₁ ++ ⟨true, .returningPermit⟩ :: l₂) :
    s.permitCh < cfg.maxConcurrentTask ∧
    Step cfg .procRearm s
      { s with procs := l₁ ++ ⟨true, .done⟩ :: l₂,
               permitCh := s.permitCh + 1 } := by
  obtain ⟨h1, h2, h3, h4⟩ := inv_reachable h
  have hlt : s.permitCh < cfg.maxConcurrentTask := by
    have e1 : s.procs.countP procHoldsPermit
        = l₁.countP procHoldsPermit + (l₂.countP procHoldsPermit + 1) := by
      rw [hp]
      simp [countP_mid, procHoldsPermit]
    simp only [permitsOutside] at h3
    omega
  exact ⟨hlt, Step.procRearm s l₁ l₂ hp hlt⟩

/-- Witness for C7 at the concrete reachable stopped state `sB9`. -/
theorem C7_permit_return_completes_witness :
    sB9.permitCh < cfg1.maxConcurrentTask ∧
    Step cfg1 .procRearm sB9
      { sB9 with procs := [] ++ ⟨true, .done⟩ :: [],
                 permitCh := sB9.permitCh + 1 } :=
  C7_permit_return_completes cfg1 sB9 reach_sB9 rfl [] [] rfl

/-- Number of permits `dispPermits` reports is at most one. -/
theorem dispPermits_le_one (d : DispatcherPhase) : dispPermits d ≤ 1 := by
  cases d with
  | dSpawn t polled => cases polled <;> simp [dispPermits]
  | dSeeding k => simp [dispPermits]
  | dSelect => simp [dispPermits]
  | dWaitLimiter t => simp [dispPermits]
  | dDone => simp [dispPermits]

/-- C8 counterexample: with `pollerCount = 1` and `maxConcurrentTask =
2`, the concrete reachable state `sD8` has two poll-sourced tasks that
have left the task source without a processor spawned — one held by the
dispatcher at the task limiter and one held by the offering poller — so
the un-begun tasks are NOT bounded by `pollerCount`. -/
theorem C8_counterexample :
    Reachable cfg2 sD8 ∧ unbegunPolled sD8 = 2 ∧ cfg2.pollerCount = 1 ∧
    cfg2.pollerCount < unbegunPolled sD8 :=
  ⟨reach_sD8, by decide, rfl, by decide⟩

/-- C8 (amended): the intake channel is an unbuffered rendezvous — a
poller offering a polled task only hands it over in the same instant
the dispatcher receives it (which requires the dispatcher to be at its
select), or drops it when the stop signal has fired; consequently the
number of poll-sourced tasks that have left the task source but have no
processor spawned yet is bounded by `pollerCount + 1` (the extra one is
the task the dispatcher itself may hold at the task limiter), not by
`pollerCount`. -/
theorem C8_intake_bound_amended :
    (∀ (cfg : BaseWorkerOptions) (s : EngineState), Reachable cfg s →
        unbegunPolled s ≤ cfg.pollerCount + 1) ∧
    (∀ (cfg : BaseWorkerOptions) (lb : StepLabel) (s s' : EngineState),
        Step cfg lb s s' → (∀ t, lb ≠ .offerDeliver t) →
        (∀ t, lb ≠ .offerDrop t) →
        s.pollers.countP pollerOffering ≤ s'.pollers.countP pollerOffering) ∧
    (∀ (cfg : BaseWorkerOptions) (t : Nat) (s s' : EngineState),
        Step cfg (.offerDeliver t) s s' → s.dispatcher = .dSelect) ∧
    (∀ (cfg : BaseWorkerOptions) (t : Nat) (s s' : EngineState),
        Step cfg (.offerDrop t) s s' → s.stopClosed = true) := by
  refine ⟨fun cfg s h => ?_, fun cfg lb s s' h hnd hndr => ?_,
    fun cfg t s s' h => ?_, fun cfg t s s' h => ?_⟩
  · obtain ⟨h1, h2, h3, h4⟩ := inv_reachable h
    have hc : s.pollers.countP pollerOffering ≤ cfg.pollerCount := by
      rw [← h1]
      exact List.countP_le_length _
    have hd := dispPermits_le_one s.dispatcher
    simp only [unbegunPolled]
    omega
  · cases h with
    | seedPermit s k hd hk hroom => simp
    | seedDone s hd => simp
    | dispatchExit s hd hstop => simp
    | offerDeliver s t l₁ l₂ hp hd => exact absurd rfl (hnd t)
    | localInject s t hd => simp
    | limiterToken s t hd => simp
    | limiterCancel s t hd hstop => simp
    | spawnProc s t polled hd => simp
    | pollerExit s l₁ l₂ hp hstop => rw [hp]; simp [countP_mid, pollerOffering]
    | takePermit s l₁ l₂ hp hc => rw [hp]; simp [countP_mid, pollerOffering]
    | pollInvoke s l₁ l₂ otask ec hp =>
        rw [hp]
        cases otask <;> simp [countP_mid, pollerOffering, pollResultPhase]
    | pollSkipped s l₁ l₂ hp hrate hstop =>
        rw [hp]
        simp [countP_mid, pollerOffering]
    | offerDrop s t l₁ l₂ hp hstop => exact absurd rfl (hndr t)
    | pollerRearm s l₁ l₂ hp hroom => rw [hp]; simp [countP_mid, pollerOffering]
    | procReturn s pk polled l₁ l₂ hp => simp
    | procRearm s l₁ l₂ hp hroom => simp
    | stopSignal s hcl => simp
  · cases h with
    | offerDeliver s t l₁ l₂ hp hd => exact hd
  · cases h with
    | offerDrop s t l₁ l₂ hp hstop => exact hstop

/-- A stopped state whose poller is still offering task 3, and the
state after that offer is dropped. -/
def sDrop0 : EngineState := { sA3 with pollers := [.pOffering 3] }

def sDrop1 : EngineState := { sA3 with pollers := [.pSelect] }

/-- Witness for C8 (amended) at the concrete reachable state `sD8` and
the concrete handoff and drop steps. -/
theorem C8_intake_bound_amended_witness :
    unbegunPolled sD8 ≤ cfg2.pollerCount + 1 ∧
    sD5.dispatcher = .dSelect ∧ sDrop0.stopClosed = true :=
  ⟨C8_intake_bound_amended.1 cfg2 sD8 reach_sD8,
   C8_intake_bound_amended.2.2.1 cfg2 7 sD5 sD6 (Step.offerDeliver sD5 7 [] [] rfl rfl),
   C8_intake_bound_amended.2.2.2 cfg1 3 sDrop0 sDrop1
     (Step.offerDrop sDrop0 3 [] [] rfl rfl)⟩

/-- C9: the task-rate limiter gates only poll-sourced tasks: the
dispatcher reaches the spawn point of a poll-sourced task only from the
`taskLimiter.Wait` state (entered at the rendezvous), that wait is
cancellable by the stop signal, while a locally injected task goes from
the dispatcher's select straight to its spawn point with no
task-rate-limiter wait. -/
theorem C9_task_limiter_polled_only :
    (∀ (cfg : BaseWorkerOptions) (lb : StepLabel) (s s' : EngineState) (t : Nat),
        Step cfg lb s s' → s.dispatcher ≠ .dSpawn t true →
        s'.dispatcher = .dSpawn t true →
        s.dispatcher = .dWaitLimiter t ∧ lb = .limiterToken t) ∧
    (∀ (cfg : BaseWorkerOptions) (s : EngineState) (t : Nat),
        s.dispatcher = .dSelect →
        Step cfg (.localInject t) s { s with dispatcher := .dSpawn t false }) ∧
    (∀ (cfg : BaseWorkerOptions) (s : EngineState) (t : Nat),
        s.dispatcher = .dWaitLimiter t → s.stopClosed = true →
        Step cfg .limiterCancel s { s with dispatcher := .dDone }) ∧
    (∀ (cfg : BaseWorkerOptions) (lb : StepLabel) (s s' : EngineState) (t : Nat),
        Step cfg lb s s' → s.dispatcher ≠ .dSpawn t false →
        s'.dispatcher = .dSpawn t false →
        s.dispatcher = .dSelect ∧ lb = .localInject t) := by
  refine ⟨fun cfg lb s s' t h hne he => ?_,
    fun cfg s t hd => Step.localInject s t hd,
    fun cfg s t hd hstop => Step.limiterCancel s t hd hstop,
    fun cfg lb s s' t h hne he => ?_⟩
  · cases h with
    | seedPermit s k hd hk hroom => simp at he
    | seedDone s hd => simp at he
    | dispatchExit s hd hstop => simp at he
    | offerDeliver s u l₁ l₂ hp hd => simp at he
    | localInject s u hd => simp at he
    | limiterToken s u hd =>
        have hu : u = t := by
          have := he
          simp only [DispatcherPhase.dSpawn.injEq] at this
          exact this.1
        subst hu
        exact ⟨hd, rfl⟩
    | limiterCancel s u hd hstop => simp at he
    | spawnProc s u polled hd => simp at he
    | pollerExit s l₁ l₂ hp hstop => exact absurd he hne
    | takePermit s l₁ l₂ hp hc => exact absurd he hne
    | pollInvoke s l₁ l₂ otask ec hp => exact absurd he hne
    | pollSkipped s l₁ l₂ hp hrate hstop => exact absurd he hne
    | offerDrop s u l₁ l₂ hp hstop => exact absurd he hne
    | pollerRearm s l₁ l₂ hp hroom => exact absurd he hne
    | procReturn s pk polled l₁ l₂ hp => exact absurd he hne
    | procRearm s l₁ l₂ hp hroom => exact absurd he hne
    | stopSignal s hcl => exact absurd he hne
  · cases h with
    | seedPermit s k hd hk hroom => simp at he
    | seedDone s hd => simp at he
    | dispatchExit s hd hstop => simp at he
    | offerDeliver s u l₁ l₂ hp hd => simp at he
    | localInject s u hd =>
        have hu : u = t := by
          have := he
          simp only [DispatcherPhase.dSpawn.injEq] at this
          exact this.1
        subst hu
        exact ⟨hd, rfl⟩
    | limiterToken s u hd => simp at he
    | limiterCancel s u hd hstop => simp at he
    | spawnProc s u polled hd => simp at he
    | pollerExit s l₁ l₂ hp hstop => exact absurd he hne
    | takePermit s l₁ l₂ hp hc => exact absurd he hne
    | pollInvoke s l₁ l₂ otask ec hp => exact absurd he hne
    | pollSkipped s l₁ l₂ hp hrate hstop => exact absurd he hne
    | offerDrop s u l₁ l₂ hp hstop => exact absurd he hne
    | pollerRearm s l₁ l₂ hp hroom => exact absurd he hne
    | procReturn s pk polled l₁ l₂ hp => exact absurd he hne
    | procRearm s l₁ l₂ hp hroom => exact absurd he hne
    | stopSignal s hcl => exact absurd he hne

/-- Witness for C9 at the concrete states: the limiter-token step into
`sB6` satisfies the inversion, a local task injected at `sA2` spawns
directly, and the limiter wait at a stopped `sB5`-variant cancels. -/
theorem C9_task_limiter_polled_only_witness :
    (sB5.dispatcher = .dWaitLimiter 3 ∧
      (StepLabel.limiterToken 3) = .limiterToken 3) ∧
    Step cfg1 (.localInject 9) sA2 { sA2 with dispatcher := .dSpawn 9 false } ∧
    Step cfg1 .limiterCancel { sB5 with stopClosed := true }
      { { sB5 with stopClosed := true } with dispatcher := .dDone } :=
  ⟨C9_task_limiter_polled_only.1 cfg1 (.limiterToken 3) sB5 sB6 3 step_sB56
      (by decide) rfl,
   C9_task_limiter_polled_only.2.1 cfg1 sA2 9 rfl,
   C9_task_limiter_polled_only.2.2.1 cfg1 { sB5 with stopClosed := true } 3 rfl rfl⟩

end TemporalBaseWorker
